import Mathlib

/-!
Verification of the bikeshare analysis pipeline (`Bikeshare.py`).

The development shallowly embeds the core of the script: the derived-column
computation and month/day filtering of `load_data` (lines 58-69), the
mode-based statistic `display_statistics` (lines 71-81) together with its
callers `time_stats` and `station_stats`, `trip_duration_stats`,
`user_stats`, and the `iloc` pagination slice of `display_raw_data`.

A pandas `DataFrame` is modelled as a `Table`: an ordered list of rows plus
per-table flags recording which optional columns are present.  Python
exceptions are modelled with `Except PyError`: `keyError` is the lookup
error raised by `series[0]` on an empty pandas Series (as in `mode()[0]`),
and `valueError` is the error raised by `int(nan)`.  The constructors
`noDataError` and `invalidFilterError` are the error values named by the
specification; the script itself never produces them, and they are used to
state the specification's claims.  `NaN` results of pandas reductions over
an empty column (`mean`, `min`, `max`) are modelled as `none`.
-/

/-- Python exception values relevant to this program.  `keyError` models the
exception raised by indexing an empty pandas Series with `[0]`;
`valueError` models `int(nan)`.  `noDataError` and `invalidFilterError` are
the domain errors postulated by the specification (never raised by the
code). -/
inductive PyError where
  | keyError
  | valueError
  | noDataError
  | invalidFilterError
deriving DecidableEq

/-- A parsed timestamp, the result of `pd.to_datetime` on the
`Start Time` column.  A real pandas timestamp always has
`1 ≤ month ≤ 12` and `hour < 24`; theorems take those bounds as
hypotheses. -/
structure Timestamp where
  year : Nat
  month : Nat
  day : Nat
  hour : Nat
  minute : Nat
  second : Nat
deriving DecidableEq

/-- One CSV record after `pd.read_csv` + `pd.to_datetime` on `Start Time`,
before the derived columns are added. -/
structure RawRow where
  startTime : Timestamp
  tripDuration : Int
  startStation : String
  endStation : String
  userType : String
  gender : String
  birthYear : Int
deriving DecidableEq

/-- One row of the loaded DataFrame, including the derived columns
`month`, `day_of_week`, `hour` added by `load_data` and the
`Start-End Combination` column added (later, in place) by
`station_stats`.  The `startEndCombo` field is meaningful only when the
table's `hasStartEndCombo` flag is set. -/
structure Row where
  startTime : Timestamp
  tripDuration : Int
  startStation : String
  endStation : String
  userType : String
  gender : String
  birthYear : Int
  month : String
  day_of_week : String
  hour : Nat
  startEndCombo : String
deriving DecidableEq

/-- A pandas DataFrame: an ordered list of rows together with flags
recording which optional columns exist in this table (`'Gender' in
df.columns`, `'Birth Year' in df.columns`, and whether `station_stats`
has added its `Start-End Combination` column). -/
structure Table where
  rows : List Row
  hasGender : Bool
  hasBirthYear : Bool
  hasStartEndCombo : Bool
deriving DecidableEq

/-- Lowercased full month name, as produced by
`dt.month_name().str.lower()` for month numbers 1..12. -/
def month_name : Nat → String
  | 1 => "january"
  | 2 => "february"
  | 3 => "march"
  | 4 => "april"
  | 5 => "may"
  | 6 => "june"
  | 7 => "july"
  | 8 => "august"
  | 9 => "september"
  | 10 => "october"
  | 11 => "november"
  | 12 => "december"
  | _ => ""

/-- Lowercased full weekday name for a weekday number with 0 = Sunday,
as produced by `dt.day_name().str.lower()`. -/
def day_name : Nat → String
  | 0 => "sunday"
  | 1 => "monday"
  | 2 => "tuesday"
  | 3 => "wednesday"
  | 4 => "thursday"
  | 5 => "friday"
  | 6 => "saturday"
  | _ => ""

/-- Month offsets of Sakamoto's weekday algorithm (index by month 1..12). -/
def sakamoto_offset : Nat → Nat
  | 1 => 0
  | 2 => 3
  | 3 => 2
  | 4 => 5
  | 5 => 0
  | 6 => 3
  | 7 => 5
  | 8 => 1
  | 9 => 4
  | 10 => 6
  | 11 => 2
  | 12 => 4
  | _ => 0

/-- Weekday (0 = Sunday .. 6 = Saturday) of a calendar date, via
Sakamoto's algorithm; this is the value underlying `dt.day_name()`. -/
def day_of_week_num (y m d : Nat) : Nat :=
  let yy := if m < 3 then y - 1 else y
  (yy + yy / 4 - yy / 100 + yy / 400 + sakamoto_offset m + d) % 7

/-- The derived-column computation of `load_data` (lines 59-62):
`month`, `day_of_week` and `hour` are computed from `Start Time` only;
`startEndCombo` does not exist yet and is left at its placeholder. -/
def derive_row (r : RawRow) : Row :=
  ⟨r.startTime, r.tripDuration, r.startStation, r.endStation, r.userType, r.gender, r.birthYear,
    month_name r.startTime.month,
    day_name (day_of_week_num r.startTime.year r.startTime.month r.startTime.day),
    r.startTime.hour, ""⟩

/-- The twelve lowercase month names. -/
def MONTH_NAMES : List String :=
  ["january", "february", "march", "april", "may", "june",
   "july", "august", "september", "october", "november", "december"]

/-- The seven lowercase weekday names. -/
def DAY_NAMES : List String :=
  ["monday", "tuesday", "wednesday", "thursday", "friday", "saturday", "sunday"]

/-- A month filter argument the specification calls valid: the sentinel
"all" or a lowercase month name. -/
def valid_month (m : String) : Prop := m = "all" ∨ m ∈ MONTH_NAMES

/-- A day filter argument the specification calls valid. -/
def valid_day (d : String) : Prop := d = "all" ∨ d ∈ DAY_NAMES

/-- The filtering step of `load_data` (lines 64-67):

    if month != 'all': df = df[df['month'] == month]
    if day != 'all':   df = df[df['day_of_week'] == day]

Note that the source performs no validation of `month` or `day`. -/
def load_filter (df : Table) (month day : String) : Table :=
  let df1 := if month ≠ "all" then
      { df with rows := df.rows.filter (fun r => r.month == month) }
    else df
  if day ≠ "all" then
    { df1 with rows := df1.rows.filter (fun r => r.day_of_week == day) }
  else df1

/-- Embedding of `load_data` (lines 46-69), starting from the parsed CSV records: add
the derived columns, then filter.  The two flags record which optional
columns the city's CSV has. -/
def load_data (raw : List RawRow) (hasGender hasBirthYear : Bool)
    (month day : String) : Table :=
  load_filter ⟨raw.map derive_row, hasGender, hasBirthYear, false⟩ month day

/-- Lexicographic less-or-equal on lists of characters, by Unicode code
point; this is how Python compares the strings that numpy sorts inside
`Series.mode()`. -/
def lexLeB : List Char → List Char → Bool
  | [], _ => true
  | _ :: _, [] => false
  | a :: as, b :: bs => if a < b then true else if b < a then false else lexLeB as bs

/-- String order used by pandas when sorting an object-dtype column. -/
def pdStrLe (a b : String) : Bool := lexLeB a.data b.data

/-- Numeric order used by pandas when sorting an integer column. -/
def pdNatLe (a b : Nat) : Bool := a ≤ b

/-- Numeric order used by pandas when sorting the `Birth Year` column. -/
def pdIntLe (a b : Int) : Bool := a ≤ b

/-- The maximal number of occurrences of any value of a column. -/
def maxCount {α : Type} [DecidableEq α] (l : List α) : Nat :=
  (l.dedup.map (fun a => l.count a)).foldr max 0

/-- Pandas `Series.mode()`: the values of the column that attain the maximal
frequency, in ascending sorted order (pandas documents that modes are
returned sorted). -/
def series_mode {α : Type} [DecidableEq α] (le : α → α → Bool) (l : List α) : List α :=
  List.insertionSort (fun a b => le a b = true)
    (l.dedup.filter (fun a => l.count a = maxCount l))

/-- Embedding of `display_statistics` (lines 71-81): `df[column].mode()[0]`.  Indexing
an empty mode Series with `[0]` raises a lookup error (`keyError`); the
column is passed as the list of its values, and `le` is the order pandas
uses to sort this column's dtype. -/
def display_statistics {α : Type} [DecidableEq α] (le : α → α → Bool)
    (col : List α) : Except PyError α :=
  match series_mode le col with
  | [] => .error .keyError
  | v :: _ => .ok v

/-- Result of `time_stats`: the three most common values it prints. -/
structure TimeStatsOut where
  month : String
  day : String
  hour : Nat
deriving DecidableEq

/-- Embedding of `time_stats` (lines 83-98): the three mode statistics, in source
order; a raised exception propagates. -/
def time_stats (df : Table) : Except PyError TimeStatsOut :=
  match display_statistics pdStrLe (df.rows.map (fun r => r.month)) with
  | .error e => .error e
  | .ok m =>
    match display_statistics pdStrLe (df.rows.map (fun r => r.day_of_week)) with
    | .error e => .error e
    | .ok d =>
      match display_statistics pdNatLe (df.rows.map (fun r => r.hour)) with
      | .error e => .error e
      | .ok h => .ok ⟨m, d, h⟩

/-- The in-place column assignment of `station_stats` (line 112):
`df['Start-End Combination'] = df['Start Station'] + " to " + df['End Station']`.
It mutates the table it is given. -/
def add_combo (df : Table) : Table :=
  { df with
    rows := df.rows.map (fun r => { r with startEndCombo := r.startStation ++ " to " ++ r.endStation }),
    hasStartEndCombo := true }

/-- Result of `station_stats`: the three most common values it prints. -/
structure StationStatsOut where
  startStation : String
  endStation : String
  combination : String
deriving DecidableEq

/-- Embedding of `station_stats` (lines 100-116).  The returned table is the state of
the input DataFrame after the call: the source adds the
`Start-End Combination` column to it in place (line 112) before taking
the third mode. -/
def station_stats (df : Table) : Except PyError (StationStatsOut × Table) :=
  match display_statistics pdStrLe (df.rows.map (fun r => r.startStation)) with
  | .error e => .error e
  | .ok s =>
    match display_statistics pdStrLe (df.rows.map (fun r => r.endStation)) with
    | .error e => .error e
    | .ok t =>
      let df2 := add_combo df
      match display_statistics pdStrLe (df2.rows.map (fun r => r.startEndCombo)) with
      | .error e => .error e
      | .ok c => .ok (⟨s, t, c⟩, df2)

/-- Result of `trip_duration_stats`.  `mean` is `none` when pandas
returns `NaN` (mean of an empty column). -/
structure DurationStatsOut where
  total : Int
  mean : Option Rat
deriving DecidableEq

/-- Embedding of `trip_duration_stats` (lines 118-135): `sum()` of an empty column is
0, `mean()` of an empty column is `NaN` (modelled `none`); both are
printed, no exception is raised. -/
def trip_duration_stats (df : Table) : Except PyError DurationStatsOut :=
  let durs := df.rows.map (fun r => r.tripDuration)
  let total := durs.foldr (· + ·) 0
  .ok ⟨total, if durs.length = 0 then none else some ((total : Rat) / (durs.length : Rat))⟩

/-- Pandas `Series.value_counts()`: occurrence count of each distinct value,
sorted by decreasing count (stable, so tied values keep first-seen
order). -/
def value_counts {α : Type} [DecidableEq α] (l : List α) : List (α × Nat) :=
  List.insertionSort (fun p q : α × Nat => q.2 ≤ p.2)
    (l.dedup.map (fun a => (a, l.count a)))

/-- Pandas `Series.min()` with skip-NaN semantics: `NaN` (`none`) on an
empty column. -/
def list_min : List Int → Option Int
  | [] => none
  | x :: xs => some (xs.foldl min x)

/-- Pandas `Series.max()`: `NaN` (`none`) on an empty column. -/
def list_max : List Int → Option Int
  | [] => none
  | x :: xs => some (xs.foldl max x)

/-- Python `int(x)` applied to a pandas scalar that may be `NaN`:
`int(nan)` raises `ValueError`. -/
def int_of_float : Option Int → Except PyError Int
  | none => .error .valueError
  | some v => .ok v

/-- Result of `user_stats`.  The two optional blocks are `none` exactly
when the corresponding column is absent from the table. -/
structure UserStatsOut where
  userTypeCounts : List (String × Nat)
  genderCounts : Option (List (String × Nat))
  birthYearStats : Option (Int × Int × Int)
deriving DecidableEq

/-- Embedding of `user_stats` (lines 137-157): always prints the `User Type` counts;
prints `Gender` counts when that column exists; when `Birth Year`
exists, computes `int(min)`, `int(max)`, `int(mode()[0])` in that order,
so on an empty table `int(nan)` raises `valueError` first. -/
def user_stats (df : Table) : Except PyError UserStatsOut :=
  let utc := value_counts (df.rows.map (fun r => r.userType))
  let gc := if df.hasGender then some (value_counts (df.rows.map (fun r => r.gender))) else none
  if df.hasBirthYear then
    let ys := df.rows.map (fun r => r.birthYear)
    match int_of_float (list_min ys) with
    | .error e => .error e
    | .ok mn =>
      match int_of_float (list_max ys) with
      | .error e => .error e
      | .ok mx =>
        match display_statistics pdIntLe ys with
        | .error e => .error e
        | .ok md => .ok ⟨utc, gc, some (mn, mx, md)⟩
  else .ok ⟨utc, gc, none⟩

/-- One page of `display_raw_data` (lines 159-169):
`df.iloc[row_index : row_index + batch_size]`.  Python slicing clips to
the table bounds and never raises. -/
def display_raw_data_page (df : Table) (row_index batch_size : Nat) : List Row :=
  (df.rows.drop row_index).take batch_size

deriving instance DecidableEq for Except

/-- Concrete timestamp: Monday 2017-01-02, 09:00. -/
def ts1 : Timestamp := ⟨2017, 1, 2, 9, 0, 0⟩

/-- Concrete timestamp: Monday 2017-01-02, 10:00. -/
def ts2 : Timestamp := ⟨2017, 1, 2, 10, 0, 0⟩

/-- Concrete timestamp: Tuesday 2017-02-07, 09:00. -/
def ts3 : Timestamp := ⟨2017, 2, 7, 9, 0, 0⟩

/-- A concrete CSV record used by witnesses. -/
def rr1 : RawRow := ⟨ts1, 100, "A-St", "B-St", "Subscriber", "Male", 1990⟩

/-- A second concrete CSV record. -/
def rr2 : RawRow := ⟨ts2, 200, "A-St", "B-St", "Customer", "Female", 1992⟩

/-- A third concrete CSV record. -/
def rr3 : RawRow := ⟨ts3, 50, "C-St", "D-St", "Subscriber", "Male", 1985⟩

/-- A concrete three-row loaded table (no filtering applied). -/
def T3 : Table := load_data [rr1, rr2, rr3] true true "all" "all"

/-- A Chicago-like table (both optional columns present) filtered down to
zero rows: no trip in the data is in december. -/
def E_chi : Table := load_data [rr1, rr2, rr3] true true "december" "all"

/-- A Washington-like table (no `Gender`, no `Birth Year` column)
filtered down to zero rows. -/
def E_wash : Table := load_data [rr1] false false "december" "all"

/-- Every member of a list of naturals is bounded by its `foldr max 0`. -/
theorem mem_le_foldr_max (L : List Nat) (x : Nat) (hx : x ∈ L) : x ≤ L.foldr max 0 := by
  induction L with
  | nil => cases hx
  | cons y ys ih =>
    rcases List.mem_cons.mp hx with rfl | h
    · exact le_max_left _ _
    · exact le_trans (ih h) (le_max_right _ _)

/-- The `foldr max 0` of a list of naturals is a member or zero. -/
theorem foldr_max_mem (L : List Nat) : L.foldr max 0 ∈ L ∨ L.foldr max 0 = 0 := by
  induction L with
  | nil => right; rfl
  | cons y ys ih =>
    rcases ih with h | h
    · rcases le_total y (ys.foldr max 0) with hle | hle
      · left
        simp only [List.foldr]
        rw [max_eq_right hle]
        exact List.mem_cons_of_mem _ h
      · left
        simp only [List.foldr]
        rw [max_eq_left hle]
        exact List.mem_cons_self _ _
    · left
      simp only [List.foldr, h]
      simp only [Nat.max_zero]
      exact List.mem_cons_self _ _

/-- No value occurs more often than `maxCount`. -/
theorem count_le_maxCount {α : Type} [DecidableEq α] (l : List α) (a : α) (ha : a ∈ l) :
    l.count a ≤ maxCount l :=
  mem_le_foldr_max _ _ (List.mem_map_of_mem _ (List.mem_dedup.mpr ha))

/-- On a nonempty column, some value attains `maxCount`. -/
theorem maxCount_attained {α : Type} [DecidableEq α] (l : List α) (hne : l ≠ []) :
    ∃ a, a ∈ l.dedup ∧ l.count a = maxCount l := by
  have hd : l.dedup ≠ [] := by simpa [List.dedup_eq_nil] using hne
  rcases foldr_max_mem (l.dedup.map (fun a => l.count a)) with h | h
  · rcases List.mem_map.mp h with ⟨a, ha, hc⟩
    exact ⟨a, ha, hc⟩
  · obtain ⟨a, as, he⟩ := List.exists_cons_of_ne_nil hd
    have ha : a ∈ l.dedup := by rw [he]; exact List.mem_cons_self _ _
    have hal : a ∈ l := List.mem_dedup.mp ha
    have h1 : 0 < l.count a := List.count_pos_iff.mpr hal
    have h2 : l.count a ≤ maxCount l := count_le_maxCount l a hal
    have h0 : maxCount l = 0 := h
    exact absurd (lt_of_lt_of_le h1 (h0 ▸ h2)) (by decide)

/-- The mode list is a permutation of the maximal-count values of the
deduplicated column. -/
theorem series_mode_perm {α : Type} [DecidableEq α] (le : α → α → Bool) (l : List α) :
    (series_mode le l).Perm (l.dedup.filter (fun a => l.count a = maxCount l)) :=
  List.perm_insertionSort _ _

/-- Membership in the mode list: exactly the values of the column whose
count is maximal. -/
theorem mem_series_mode {α : Type} [DecidableEq α] (le : α → α → Bool) (l : List α) (a : α) :
    a ∈ series_mode le l ↔ a ∈ l ∧ l.count a = maxCount l := by
  rw [(series_mode_perm le l).mem_iff, List.mem_filter, List.mem_dedup]
  simp

/-- The mode of a nonempty column is nonempty. -/
theorem series_mode_ne_nil {α : Type} [DecidableEq α] (le : α → α → Bool) (l : List α)
    (hne : l ≠ []) : series_mode le l ≠ [] := by
  obtain ⟨a, ha, hc⟩ := maxCount_attained l hne
  intro h
  have hmem : a ∈ series_mode le l := (mem_series_mode le l a).mpr ⟨List.mem_dedup.mp ha, hc⟩
  rw [h] at hmem
  cases hmem

/-- On a nonempty column, `display_statistics` succeeds and returns a
member of the mode list. -/
theorem display_statistics_ok {α : Type} [DecidableEq α] (le : α → α → Bool) (l : List α)
    (hne : l ≠ []) : ∃ v, display_statistics le l = .ok v ∧ v ∈ series_mode le l := by
  cases hsm : series_mode le l with
  | nil => exact absurd hsm (series_mode_ne_nil le l hne)
  | cons v rest =>
    refine ⟨v, ?_, List.mem_cons_self _ _⟩
    unfold display_statistics
    rw [hsm]

/-- Unfolding lemma for the lexicographic order on cons cells. -/
theorem lexLeB_cons_iff (a b : Char) (as bs : List Char) :
    lexLeB (a :: as) (b :: bs) = true ↔ a < b ∨ (a = b ∧ lexLeB as bs = true) := by
  simp only [lexLeB]
  split_ifs with h1 h2
  · simp [h1]
  · constructor
    · intro h; cases h
    · rintro (h | ⟨rfl, -⟩)
      · exact absurd h h1
      · exact absurd h2 (lt_irrefl _)
  · have hab : a = b := le_antisymm (not_lt.mp h2) (not_lt.mp h1)
    subst hab
    simp [lt_irrefl]

/-- Totality of the lexicographic string order. -/
theorem lexLeB_total (x y : List Char) : lexLeB x y = true ∨ lexLeB y x = true := by
  induction x generalizing y with
  | nil => left; rfl
  | cons a as ih =>
    cases y with
    | nil => right; rfl
    | cons b bs =>
      rcases lt_trichotomy a b with h | h | h
      · left; rw [lexLeB_cons_iff]; exact Or.inl h
      · subst h
        rcases ih bs with h2 | h2
        · left; rw [lexLeB_cons_iff]; exact Or.inr ⟨rfl, h2⟩
        · right; rw [lexLeB_cons_iff]; exact Or.inr ⟨rfl, h2⟩
      · right; rw [lexLeB_cons_iff]; exact Or.inl h

/-- Transitivity of the lexicographic string order. -/
theorem lexLeB_trans (x y z : List Char) (h1 : lexLeB x y = true) (h2 : lexLeB y z = true) :
    lexLeB x z = true := by
  induction x generalizing y z with
  | nil => rfl
  | cons a as ih =>
    cases y with
    | nil => simp [lexLeB] at h1
    | cons b bs =>
      cases z with
      | nil => simp [lexLeB] at h2
      | cons c cs =>
        rw [lexLeB_cons_iff] at h1 h2 ⊢
        rcases h1 with h1 | ⟨rfl, h1⟩
        · rcases h2 with h2 | ⟨rfl, h2⟩
          · exact Or.inl (lt_trans h1 h2)
          · exact Or.inl h1
        · rcases h2 with h2 | ⟨rfl, h2⟩
          · exact Or.inl h2
          · exact Or.inr ⟨rfl, ih bs cs h1 h2⟩

/-- Transitivity of the pandas string order. -/
theorem pdStrLe_trans (a b c : String) (h1 : pdStrLe a b = true) (h2 : pdStrLe b c = true) :
    pdStrLe a c = true :=
  lexLeB_trans _ _ _ h1 h2

/-- Totality of the pandas string order. -/
theorem pdStrLe_total (a b : String) : pdStrLe a b = true ∨ pdStrLe b a = true :=
  lexLeB_total _ _

/-- Transitivity of the pandas integer-column order. -/
theorem pdIntLe_trans (a b c : Int) (h1 : pdIntLe a b = true) (h2 : pdIntLe b c = true) :
    pdIntLe a c = true := by
  simp only [pdIntLe, decide_eq_true_eq] at h1 h2 ⊢
  omega

/-- Totality of the pandas integer-column order. -/
theorem pdIntLe_total (a b : Int) : pdIntLe a b = true ∨ pdIntLe b a = true := by
  simp only [pdIntLe, decide_eq_true_eq]
  omega

/-- Structure of the mode of a nonempty column: a first element that
attains the maximal count and precedes, in the column's order, every
value that also attains it. -/
theorem series_mode_head {α : Type} [DecidableEq α] (le : α → α → Bool)
    (htrans : ∀ a b c, le a b = true → le b c = true → le a c = true)
    (htotal : ∀ a b, le a b = true ∨ le b a = true)
    (l : List α) (hne : l ≠ []) :
    ∃ v rest, series_mode le l = v :: rest ∧ v ∈ l ∧ l.count v = maxCount l ∧
      (∀ a ∈ l, l.count a = maxCount l → le v a = true) := by
  have hsorted : (series_mode le l).Sorted (fun a b => le a b = true) := by
    haveI : IsTotal α (fun a b => le a b = true) := ⟨fun a b => htotal a b⟩
    haveI : IsTrans α (fun a b => le a b = true) := ⟨fun a b c => htrans a b c⟩
    exact List.sorted_insertionSort _ _
  cases hsm : series_mode le l with
  | nil => exact absurd hsm (series_mode_ne_nil le l hne)
  | cons v rest =>
    have hv := (mem_series_mode le l v).mp (by rw [hsm]; exact List.mem_cons_self _ _)
    refine ⟨v, rest, rfl, hv.1, hv.2, ?_⟩
    intro a ha hc
    have ham : a ∈ series_mode le l := (mem_series_mode le l a).mpr ⟨ha, hc⟩
    rw [hsm] at ham hsorted
    rcases List.mem_cons.mp ham with h | ham2
    · subst h
      exact (htotal _ _).elim id id
    · exact List.rel_of_sorted_cons hsorted a ham2

/-- C10: on a nonempty column, the mode-based statistic returns a value of
maximal frequency, and among the values tied for the maximal frequency it
returns the smallest under the column's order, because `Series.mode()`
returns the tied values sorted and `display_statistics` takes element 0.
The comparator `le` is instantiated with `pdStrLe` for the string columns
(month, day_of_week, stations, combination) and with `pdNatLe`/`pdIntLe`
for hour and birth year. -/
theorem mode_tiebreak_smallest {α : Type} [DecidableEq α] (le : α → α → Bool)
    (htrans : ∀ a b c, le a b = true → le b c = true → le a c = true)
    (htotal : ∀ a b, le a b = true ∨ le b a = true)
    (l : List α) (hne : l ≠ []) :
    ∃ v, display_statistics le l = .ok v ∧ v ∈ l ∧
      (∀ a ∈ l, l.count a ≤ l.count v) ∧
      (∀ a ∈ l, l.count a = l.count v → le v a = true) := by
  obtain ⟨v, rest, hsm, hv, hc, hmin⟩ := series_mode_head le htrans htotal l hne
  refine ⟨v, ?_, hv, ?_, ?_⟩
  · unfold display_statistics
    rw [hsm]
  · intro a ha
    rw [hc]
    exact count_le_maxCount l a ha
  · intro a ha h
    exact hmin a ha (h.trans hc)

/-- Witness for C10 at a concrete column with a genuine tie: "a" and "b"
both occur twice, and the statistic picks the lexicographically smaller
"a". -/
theorem mode_tiebreak_smallest_witness :
    ∃ v, display_statistics pdStrLe ["b", "a", "b", "a", "c"] = .ok v ∧
      v ∈ ["b", "a", "b", "a", "c"] ∧
      (∀ a ∈ ["b", "a", "b", "a", "c"],
        List.count a ["b", "a", "b", "a", "c"] ≤ List.count v ["b", "a", "b", "a", "c"]) ∧
      (∀ a ∈ ["b", "a", "b", "a", "c"],
        List.count a ["b", "a", "b", "a", "c"] = List.count v ["b", "a", "b", "a", "c"] →
          pdStrLe v a = true) :=
  mode_tiebreak_smallest pdStrLe pdStrLe_trans pdStrLe_total ["b", "a", "b", "a", "c"] (by decide)

/-- C1 (amended): on an empty table, each of the six mode-based statistics
fails by raising the lookup error of `mode()[0]` on an empty Series
(modelled `keyError`), and so do the `time_stats` and `station_stats`
calls that wrap them.  The computation does fail rather than return a
default, but the error is the raw pandas lookup error, not the
specification's `NoDataError`. -/
theorem mode_stats_empty_table (df : Table) (h : df.rows = []) :
    display_statistics pdStrLe (df.rows.map (fun r => r.month)) = .error .keyError ∧
    display_statistics pdStrLe (df.rows.map (fun r => r.day_of_week)) = .error .keyError ∧
    display_statistics pdNatLe (df.rows.map (fun r => r.hour)) = .error .keyError ∧
    display_statistics pdStrLe (df.rows.map (fun r => r.startStation)) = .error .keyError ∧
    display_statistics pdStrLe (df.rows.map (fun r => r.endStation)) = .error .keyError ∧
    display_statistics pdStrLe ((add_combo df).rows.map (fun r => r.startEndCombo)) = .error .keyError ∧
    time_stats df = .error .keyError ∧
    station_stats df = .error .keyError := by
  rcases df with ⟨rows, hg, hby, hsc⟩
  obtain rfl : rows = [] := h
  exact ⟨rfl, rfl, rfl, rfl, rfl, rfl, rfl, rfl⟩

/-- Witness for C1 at the concrete empty table `E_chi` (a filter
combination matching zero rows). -/
theorem mode_stats_empty_table_witness :
    display_statistics pdStrLe (E_chi.rows.map (fun r => r.month)) = .error .keyError ∧
    display_statistics pdStrLe (E_chi.rows.map (fun r => r.day_of_week)) = .error .keyError ∧
    display_statistics pdNatLe (E_chi.rows.map (fun r => r.hour)) = .error .keyError ∧
    display_statistics pdStrLe (E_chi.rows.map (fun r => r.startStation)) = .error .keyError ∧
    display_statistics pdStrLe (E_chi.rows.map (fun r => r.endStation)) = .error .keyError ∧
    display_statistics pdStrLe ((add_combo E_chi).rows.map (fun r => r.startEndCombo)) = .error .keyError ∧
    time_stats E_chi = .error .keyError ∧
    station_stats E_chi = .error .keyError :=
  mode_stats_empty_table E_chi (by decide)

/-- Counterexample for C1 as stated: on the concrete empty table the
mode statistics do not fail with the specification's `noDataError` (they
raise the generic lookup error instead). -/
theorem mode_stats_empty_table_cex :
    E_chi.rows = [] ∧
    time_stats E_chi ≠ Except.error PyError.noDataError ∧
    station_stats E_chi ≠ Except.error PyError.noDataError := by decide

/-- C2 (amended): on an empty table `trip_duration_stats` returns total
duration 0 (as the claim states) and silently returns the mean as pandas
`NaN` (modelled `none`); it does not signal any error, in particular not
`noDataError`. -/
theorem duration_stats_empty_table (df : Table) (h : df.rows = []) :
    trip_duration_stats df = .ok ⟨0, none⟩ := by
  rcases df with ⟨rows, hg, hby, hsc⟩
  obtain rfl : rows = [] := h
  rfl

/-- Witness for C2 at the concrete empty table `E_chi`. -/
theorem duration_stats_empty_table_witness :
    trip_duration_stats E_chi = .ok ⟨0, none⟩ :=
  duration_stats_empty_table E_chi (by decide)

/-- Counterexample for C2 as stated: on the concrete empty table the mean
is returned silently as `NaN` inside a successful result, not signalled
as `noDataError`. -/
theorem duration_stats_empty_table_cex :
    E_chi.rows = [] ∧
    trip_duration_stats E_chi = Except.ok ⟨0, none⟩ ∧
    trip_duration_stats E_chi ≠ Except.error PyError.noDataError := by decide

/-- C7 (amended): on an empty table `user_stats` returns the empty
user-type count mapping without an error only when the `Birth Year`
column is absent; when `Birth Year` is present, `int(df["Birth Year"].min())`
is `int(nan)` and raises `valueError`. -/
theorem user_stats_empty_table (df : Table) (h : df.rows = []) :
    (df.hasBirthYear = false →
      user_stats df = .ok ⟨[], if df.hasGender then some [] else none, none⟩) ∧
    (df.hasBirthYear = true → user_stats df = .error .valueError) := by
  rcases df with ⟨rows, hg, hby, hsc⟩
  obtain rfl : rows = [] := h
  constructor
  · intro hb
    obtain rfl : hby = false := hb
    cases hg <;> rfl
  · intro hb
    obtain rfl : hby = true := hb
    cases hg <;> rfl

/-- Witness for C7 at the concrete empty Washington-like table (no
optional columns): empty user-type counts, no error. -/
theorem user_stats_empty_table_witness :
    user_stats E_wash = .ok ⟨[], if E_wash.hasGender then some [] else none, none⟩ :=
  (user_stats_empty_table E_wash (by decide)).1 (by decide)

/-- Counterexample for C7 as stated: on the concrete empty table with the
`Birth Year` column present, `user_stats` raises an error instead of
returning the empty mapping. -/
theorem user_stats_empty_table_cex :
    E_chi.rows = [] ∧ E_chi.hasBirthYear = true ∧
    user_stats E_chi = Except.error PyError.valueError := by decide

/-- C4: for every table and valid month/day arguments, the filter keeps
exactly the rows matching the month condition (when month is not "all")
and the day condition (when day is not "all"), conjunctively; and
filtering with "all"/"all" is the identity. -/
theorem filter_semantics (t : Table) (m d : String) (hm : valid_month m) (hd : valid_day d) :
    (load_filter t m d).rows
      = t.rows.filter
          (fun r => ((m == "all") || (r.month == m)) && ((d == "all") || (r.day_of_week == d)))
    ∧ load_filter t "all" "all" = t := by
  constructor
  · by_cases hm2 : m = "all" <;> by_cases hd2 : d = "all"
    · subst hm2; subst hd2
      simp [load_filter]
    · subst hm2
      simp only [load_filter, ne_eq, not_true_eq_false, if_false, if_neg, hd2, not_false_eq_true,
        if_true, ite_not]
      apply List.filter_congr
      intro x hx
      have h1 : (("all" : String) == "all") = true := by decide
      have h2 : (d == "all") = false := beq_eq_false_iff_ne.mpr hd2
      rw [h1, h2, Bool.true_or, Bool.true_and, Bool.false_or]
    · subst hd2
      simp only [load_filter, ne_eq, not_true_eq_false, if_false, if_neg, hm2, not_false_eq_true,
        if_true, ite_not]
      apply List.filter_congr
      intro x hx
      have h1 : (("all" : String) == "all") = true := by decide
      have h2 : (m == "all") = false := beq_eq_false_iff_ne.mpr hm2
      rw [h1, h2, Bool.false_or, Bool.true_or, Bool.and_true]
    · simp only [load_filter, ne_eq, hm2, not_false_eq_true, if_true, hd2]
      rw [List.filter_filter]
      apply List.filter_congr
      intro x hx
      have h1 : (m == "all") = false := beq_eq_false_iff_ne.mpr hm2
      have h2 : (d == "all") = false := beq_eq_false_iff_ne.mpr hd2
      rw [h1, h2, Bool.false_or, Bool.false_or, Bool.and_comm]
  · simp [load_filter]

/-- C5: for every table and valid month/day arguments, the filtered rows
form a subsequence of the input rows (no additions, duplications or
reorderings), so in particular the length does not grow. -/
theorem filter_subsequence (t : Table) (m d : String) (hm : valid_month m) (hd : valid_day d) :
    (load_filter t m d).rows.Sublist t.rows ∧
    (load_filter t m d).rows.length ≤ t.rows.length := by
  have hs : (load_filter t m d).rows.Sublist t.rows := by
    by_cases hm2 : m = "all" <;> by_cases hd2 : d = "all" <;>
        simp only [load_filter, hm2, hd2, ne_eq, not_true_eq_false, not_false_eq_true,
          ite_true, ite_false] <;>
      first
      | exact List.Sublist.refl _
      | exact List.filter_sublist _
      | exact (List.filter_sublist _).trans (List.filter_sublist _)
  exact ⟨hs, hs.length_le⟩

/-- C3 (amended): the core performs no validation of the filter values: a
month or day argument outside the recognized set (and different from
"all") silently produces an empty result, because it matches no row of a
well-formed table; no `invalidFilterError` is ever signalled (the return
type of `load_filter` is a table, not an error). -/
theorem invalid_filter_silently_empty (t : Table) (m d : String)
    (hwm : ∀ r ∈ t.rows, r.month ∈ MONTH_NAMES)
    (hwd : ∀ r ∈ t.rows, r.day_of_week ∈ DAY_NAMES) :
    (m ∉ MONTH_NAMES → m ≠ "all" → (load_filter t m d).rows = []) ∧
    (d ∉ DAY_NAMES → d ≠ "all" → (load_filter t m d).rows = []) := by
  constructor
  · intro h1 h2
    have hnil : t.rows.filter (fun r => r.month == m) = [] := by
      rw [List.filter_eq_nil_iff]
      intro r hr
      simp only [beq_iff_eq]
      intro he
      exact h1 (he ▸ hwm r hr)
    by_cases hd2 : d = "all"
    · subst hd2
      simp [load_filter, h2, hnil]
    · simp [load_filter, h2, hd2, hnil]
  · intro h1 h2
    have hnil : ∀ l : List Row, (∀ r ∈ l, r ∈ t.rows) →
        l.filter (fun r => r.day_of_week == d) = [] := by
      intro l hl
      rw [List.filter_eq_nil_iff]
      intro r hr
      simp only [beq_iff_eq]
      intro he
      exact h1 (he ▸ hwd r (hl r hr))
    by_cases hm2 : m = "all"
    · subst hm2
      simp only [load_filter, ne_eq, not_true_eq_false, if_false, h2, not_false_eq_true, if_true,
        ite_not, if_neg]
      exact hnil _ (fun r hr => hr)
    · simp only [load_filter, ne_eq, hm2, not_false_eq_true, if_true, h2]
      exact hnil _ (fun r hr => (List.filter_sublist _).mem hr)

/-- Witness for C3: filtering the concrete table with the capitalized,
hence unrecognized, value "March" silently yields an empty result. -/
theorem invalid_filter_silently_empty_witness :
    (load_filter T3 "March" "all").rows = [] :=
  (invalid_filter_silently_empty T3 "March" "all" (by decide) (by decide)).1
    (by decide) (by decide)

/-- Counterexample for C3 as stated: on a concrete nonempty table, the
unrecognized month value "foo" does not fail (the filter is a total
function into tables, with no error outcome); it silently returns the
empty table. -/
theorem invalid_filter_silently_empty_cex :
    T3.rows ≠ [] ∧ (load_filter T3 "foo" "all").rows = [] := by decide

/-- Witness for C4 at the concrete table: filtering by "january"/"all"
keeps exactly the january rows, and "all"/"all" is the identity. -/
theorem filter_semantics_witness :
    (load_filter T3 "january" "all").rows
      = T3.rows.filter
          (fun r => ((("january" : String) == "all") || (r.month == "january")) &&
            ((("all" : String) == "all") || (r.day_of_week == "all")))
    ∧ load_filter T3 "all" "all" = T3 :=
  filter_semantics T3 "january" "all" (Or.inr (by decide)) (Or.inl rfl)

/-- Witness for C5 at the concrete table with a valid month/day pair. -/
theorem filter_subsequence_witness :
    (load_filter T3 "january" "monday").rows.Sublist T3.rows ∧
    (load_filter T3 "january" "monday").rows.length ≤ T3.rows.length :=
  filter_subsequence T3 "january" "monday" (Or.inr (by decide)) (Or.inr (by decide))

/-- C6 (amended): the filtering operation and the time/duration/user
statistics leave the table they receive unchanged (they are embedded as
pure readers because the source never assigns into the DataFrame inside
them), but `station_stats` mutates the table it receives: it adds the
`Start-End Combination` column in place, so the table after the call
(`add_combo t`) differs from the input table. -/
theorem station_stats_mutation (t : Table) (h1 : t.hasStartEndCombo = false)
    (h2 : t.rows ≠ []) :
    (∃ out, station_stats t = .ok (out, add_combo t)) ∧
    add_combo t ≠ t ∧ (add_combo t).hasStartEndCombo = true := by
  refine ⟨?_, ?_, rfl⟩
  · have hmap : ∀ f : Row → String, t.rows.map f ≠ [] := by
      intro f h
      exact h2 (List.map_eq_nil_iff.mp h)
    obtain ⟨s, hs, -⟩ :=
      display_statistics_ok pdStrLe (t.rows.map (fun r => r.startStation)) (hmap _)
    obtain ⟨e, he, -⟩ :=
      display_statistics_ok pdStrLe (t.rows.map (fun r => r.endStation)) (hmap _)
    have hcne : (add_combo t).rows.map (fun r => r.startEndCombo) ≠ [] := by
      simp only [add_combo, List.map_map]
      intro h
      exact h2 (List.map_eq_nil_iff.mp h)
    obtain ⟨c, hc, -⟩ := display_statistics_ok pdStrLe _ hcne
    refine ⟨⟨s, e, c⟩, ?_⟩
    simp only [station_stats, hs, he, hc]
  · intro hEq
    have h3 : (add_combo t).hasStartEndCombo = true := rfl
    rw [hEq, h1] at h3
    cases h3

/-- Witness for C6 at the concrete nonempty table `T3`. -/
theorem station_stats_mutation_witness :
    (∃ out, station_stats T3 = .ok (out, add_combo T3)) ∧
    add_combo T3 ≠ T3 ∧ (add_combo T3).hasStartEndCombo = true :=
  station_stats_mutation T3 (by decide) (by decide)

/-- Counterexample for C6 as stated: on the concrete table `T3`,
`station_stats` returns a mutated table (the input with the combination
column added), not the table it received. -/
theorem station_stats_mutation_cex :
    station_stats T3 = Except.ok (⟨"A-St", "B-St", "A-St to B-St"⟩, add_combo T3) ∧
    add_combo T3 ≠ T3 := by decide

/-- C8: the raw-data page is the ordered slice of rows with indices in
the window starting at the offset, clipped to the table bounds: its
length is the clipped window size, element `i` of the page is row
`offset + i` of the table (and `none` past the window), and an offset at
or past the end yields the empty slice; the operation is total, so it
never raises. -/
theorem page_contract (t : Table) (o s : Nat) :
    (display_raw_data_page t o s).length = min s (t.rows.length - o) ∧
    (∀ i : Nat, (display_raw_data_page t o s)[i]? = if i < s then t.rows[o + i]? else none) ∧
    (t.rows.length ≤ o → display_raw_data_page t o s = []) := by
  refine ⟨?_, ?_, ?_⟩
  · simp only [display_raw_data_page, List.length_take, List.length_drop]
  · intro i
    simp only [display_raw_data_page, List.getElem?_take, List.getElem?_drop]
  · intro h
    simp [display_raw_data_page, List.drop_eq_nil_of_le h]

/-- Witness for C8 at the concrete 3-row table: an offset past the end
yields the empty slice without error, and a partially out-of-range
window at offset 0 is clipped to the 3 available rows. -/
theorem page_contract_witness :
    display_raw_data_page T3 5 5 = [] ∧
    (display_raw_data_page T3 0 5).length = min 5 (T3.rows.length - 0) :=
  ⟨(page_contract T3 5 5).2.2 (by decide), (page_contract T3 0 5).1⟩

/-- C9: the derived fields are pure functions of `start_time` alone: on
any row whose timestamp satisfies the pandas invariants, the derived
month is a full lowercase month name, the derived day a full lowercase
weekday name, the derived hour is below 24, and any two raw rows with
the same `start_time` derive identical values. -/
theorem derived_fields_pure (r1 r2 : RawRow)
    (hm1 : 1 ≤ r1.startTime.month) (hm2 : r1.startTime.month ≤ 12)
    (hh : r1.startTime.hour < 24)
    (heq : r1.startTime = r2.startTime) :
    (derive_row r1).month ∈ MONTH_NAMES ∧
    (derive_row r1).day_of_week ∈ DAY_NAMES ∧
    (derive_row r1).hour < 24 ∧
    (derive_row r1).month = (derive_row r2).month ∧
    (derive_row r1).day_of_week = (derive_row r2).day_of_week ∧
    (derive_row r1).hour = (derive_row r2).hour := by
  refine ⟨?_, ?_, hh, by simp [derive_row, heq], by simp [derive_row, heq],
    by simp [derive_row, heq]⟩
  · have h : ∀ n : Nat, 1 ≤ n → n ≤ 12 → month_name n ∈ MONTH_NAMES := by
      intro n h1 h2
      interval_cases n <;> decide
    exact h _ hm1 hm2
  · have h : ∀ w : Nat, w < 7 → day_name w ∈ DAY_NAMES := by
      intro w hw
      interval_cases w <;> decide
    have h7 : day_of_week_num r1.startTime.year r1.startTime.month r1.startTime.day < 7 := by
      simp only [day_of_week_num]
      exact Nat.mod_lt _ (by omega)
    exact h _ h7

/-- Witness for C9 at the concrete record `rr1` (2017-01-02 09:00, a
monday in january). -/
theorem derived_fields_pure_witness :
    (derive_row rr1).month ∈ MONTH_NAMES ∧
    (derive_row rr1).day_of_week ∈ DAY_NAMES ∧
    (derive_row rr1).hour < 24 ∧
    (derive_row rr1).month = (derive_row rr1).month ∧
    (derive_row rr1).day_of_week = (derive_row rr1).day_of_week ∧
    (derive_row rr1).hour = (derive_row rr1).hour :=
  derived_fields_pure rr1 rr1 (by decide) (by decide) (by decide) rfl
